import Mathlib

/-!
# Verification of the sexe expression core

Shallow embedding of the `sexe-expression` and `sexe-parser` crates:
the expression tree, the recursive evaluator, the nom-based grammar
(`parse_expr` / `parse`), and the domain sampler
`evaluate_function_over_domain`.

## Modelling conventions

* Rust `f64` values are modelled by `F64`: the special values NaN and the two
  infinities are explicit constructors, every other (finite) double is an
  exact rational number (`F64.fin`).  Arithmetic on finite values is exact
  rational arithmetic; this is an idealisation of IEEE-754 rounding, and every
  concrete computation appearing in a theorem below stays inside the fragment
  where the two agree (small integers and binary fractions, where IEEE-754
  arithmetic is exact).
* The transcendental library functions (`sin`, `ln`, `powf`, ...) cannot be
  computed exactly on rationals.  They are modelled exactly at the arguments
  whose IEEE-754 double results are exact and pinned by the crate's own test
  suite (for example `ln e = 1`, `sin 0 = 0`, `9.log 3 = 2`, integer powers),
  and at the IEEE-754 special values; everywhere else they return the marker
  `F64.approx`, an f64 value the model does not track further.  No theorem in
  this file depends on the value of an `approx` result.
* `std::f64::consts::E` and `PI` are the exact rational values of the
  corresponding doubles.
* Rust `HashMap<String, f64>` environments become association lists
  `List (String × F64)` with first-match lookup (keys are unique in every use
  in the crate, so first-match agrees with `HashMap` lookup).
* `u32` resolutions become `Nat` (no sampling claim exercises overflow).
-/

/- Batteries marks the rational-number operations irreducible, which blocks
the definitional evaluation this development relies on for concrete
computations; restore the default reducibility inside this file. -/
attribute [local semireducible] Rat.add Rat.mul Rat.inv Rat.sub

/-- Model of a Rust `f64` value: NaN, the two infinities, an exact finite
value, or `approx` — a finite-precision result outside the exactly modelled
fragment (e.g. `sin 1`), which the model does not track further. -/
inductive F64 where
  | nan
  | inf
  | ninf
  | fin (q : ℚ)
  | approx
  deriving Repr, DecidableEq

namespace F64

/-- The exact rational value of the double `std::f64::consts::E`, namely
`6121026514868073 / 2^51` (given directly as a reduced fraction: the
numerator is odd, so the fraction is already in lowest terms). -/
def E : ℚ := ⟨6121026514868073, 2251799813685248, by norm_num, by norm_num⟩

/-- The exact rational value of the double `std::f64::consts::PI`, namely
`884279719003555 / 2^48` (given directly as a reduced fraction: the
numerator is odd, so the fraction is already in lowest terms). -/
def PI : ℚ := ⟨884279719003555, 281474976710656, by norm_num, by norm_num⟩

/-- IEEE-754 negation (`-x`). -/
def neg : F64 → F64
  | nan => nan
  | inf => ninf
  | ninf => inf
  | fin q => fin (-q)
  | approx => approx

/-- IEEE-754 addition, exact on the rational fragment. -/
def add : F64 → F64 → F64
  | nan, _ => nan
  | _, nan => nan
  | approx, _ => approx
  | _, approx => approx
  | inf, ninf => nan
  | inf, _ => inf
  | ninf, inf => nan
  | ninf, _ => ninf
  | fin _, inf => inf
  | fin _, ninf => ninf
  | fin p, fin q => fin (p + q)

/-- IEEE-754 subtraction, exact on the rational fragment. -/
def sub : F64 → F64 → F64
  | nan, _ => nan
  | _, nan => nan
  | approx, _ => approx
  | _, approx => approx
  | inf, inf => nan
  | inf, _ => inf
  | ninf, ninf => nan
  | ninf, _ => ninf
  | fin _, inf => ninf
  | fin _, ninf => inf
  | fin p, fin q => fin (p - q)

/-- IEEE-754 multiplication, exact on the rational fragment
(`∞ * 0 = NaN`, signs as usual). -/
def mul : F64 → F64 → F64
  | nan, _ => nan
  | _, nan => nan
  | approx, _ => approx
  | _, approx => approx
  | inf, inf => inf
  | inf, ninf => ninf
  | ninf, inf => ninf
  | ninf, ninf => inf
  | inf, fin q => if q = 0 then nan else if 0 < q then inf else ninf
  | fin q, inf => if q = 0 then nan else if 0 < q then inf else ninf
  | ninf, fin q => if q = 0 then nan else if 0 < q then ninf else inf
  | fin q, ninf => if q = 0 then nan else if 0 < q then ninf else inf
  | fin p, fin q => fin (p * q)

/-- IEEE-754 division, exact on the rational fragment: a nonzero finite value
divided by zero is a signed infinity, `0/0` is NaN (the model's zero is
unsigned, so results take the sign of the +0 case). -/
def div : F64 → F64 → F64
  | nan, _ => nan
  | _, nan => nan
  | approx, _ => approx
  | _, approx => approx
  | inf, inf => nan
  | inf, ninf => nan
  | ninf, inf => nan
  | ninf, ninf => nan
  | inf, fin q => if 0 ≤ q then inf else ninf
  | ninf, fin q => if 0 ≤ q then ninf else inf
  | fin _, inf => fin 0
  | fin _, ninf => fin 0
  | fin p, fin q =>
      if q = 0 then (if p = 0 then nan else if 0 < p then inf else ninf)
      else fin (p / q)

/-- IEEE-754 `powf`.  `x^±0 = 1` for every `x` (even NaN) and `1^y = 1` for
every `y`, per IEEE-754 `pow`; integer exponents on finite bases are exact
rational powers (idealised: no overflow); a negative base with a non-integer
exponent is NaN; remaining finite cases are irrational in general and return
`approx`. -/
def powf : F64 → F64 → F64
  | _, fin 0 => fin 1
  | fin 1, _ => fin 1
  | nan, _ => nan
  | _, nan => nan
  | approx, _ => approx
  | _, approx => approx
  | inf, inf => inf
  | inf, ninf => fin 0
  | ninf, inf => inf
  | ninf, ninf => fin 0
  | inf, fin q => if 0 < q then inf else fin 0
  | ninf, fin q =>
      if 0 < q then (if q.den = 1 ∧ Odd q.num then ninf else inf)
      else fin 0
  | fin a, inf => if 1 < |a| then inf else if |a| < 1 then fin 0 else fin 1
  | fin a, ninf => if 1 < |a| then fin 0 else if |a| < 1 then inf else fin 1
  | fin a, fin b =>
      if b.den = 1 then
        (if a = 0 then (if 0 < b.num then fin 0 else inf) else fin (a ^ b.num))
      else
        if a < 0 then nan
        else if a = 0 then (if 0 < b then fin 0 else inf)
        else approx

/-- IEEE-754 `abs`, exact. -/
def abs : F64 → F64
  | nan => nan
  | inf => inf
  | ninf => inf
  | fin q => fin |q|
  | approx => approx

/-- `f64::sin`: exact at 0, NaN at NaN/±∞, untracked elsewhere. -/
def sin : F64 → F64
  | nan => nan
  | inf => nan
  | ninf => nan
  | fin q => if q = 0 then fin 0 else approx
  | approx => approx

/-- `f64::cos`: exact at 0, NaN at NaN/±∞, untracked elsewhere. -/
def cos : F64 → F64
  | nan => nan
  | inf => nan
  | ninf => nan
  | fin q => if q = 0 then fin 1 else approx
  | approx => approx

/-- `f64::tan`: exact at 0, NaN at NaN/±∞, untracked elsewhere. -/
def tan : F64 → F64
  | nan => nan
  | inf => nan
  | ninf => nan
  | fin q => if q = 0 then fin 0 else approx
  | approx => approx

/-- `f64::exp`: exact at 0 and the special values, untracked elsewhere. -/
def exp : F64 → F64
  | nan => nan
  | inf => inf
  | ninf => fin 0
  | fin q => if q = 0 then fin 1 else approx
  | approx => approx

/-- `f64::ln`: NaN on negative arguments, `-∞` at 0, exact at 1 and at the
double constant `E` (where the IEEE-754 result is exactly 1, as the crate's
test `ln(e) == 1.0` pins), untracked elsewhere. -/
def ln : F64 → F64
  | nan => nan
  | inf => inf
  | ninf => nan
  | fin q =>
      if q < 0 then nan
      else if q = 0 then ninf
      else if q = 1 then fin 0
      else if q = E then fin 1
      else approx
  | approx => approx

/-- `f64::log2`: NaN on negative arguments, `-∞` at 0, exact at 1,
untracked elsewhere. -/
def log2 : F64 → F64
  | nan => nan
  | inf => inf
  | ninf => nan
  | fin q =>
      if q < 0 then nan
      else if q = 0 then ninf
      else if q = 1 then fin 0
      else approx
  | approx => approx

/-- Modelled from the spec: `f64::log10` for the `Log10` operator, which the
parser constructs but whose enum variant is missing from the snapshot's
`sexe-expression` crate.  NaN on negative arguments, `-∞` at 0, exact at 1,
untracked elsewhere. -/
def log10 : F64 → F64
  | nan => nan
  | inf => inf
  | ninf => nan
  | fin q =>
      if q < 0 then nan
      else if q = 0 then ninf
      else if q = 1 then fin 0
      else approx
  | approx => approx

/-- `f64::asin`: NaN outside `[-1, 1]` and at NaN/±∞, exact at 0,
untracked elsewhere. -/
def asin : F64 → F64
  | nan => nan
  | inf => nan
  | ninf => nan
  | fin q => if 1 < |q| then nan else if q = 0 then fin 0 else approx
  | approx => approx

/-- `f64::acos`: NaN outside `[-1, 1]` and at NaN/±∞, exact at 1,
untracked elsewhere. -/
def acos : F64 → F64
  | nan => nan
  | inf => nan
  | ninf => nan
  | fin q => if 1 < |q| then nan else if q = 1 then fin 0 else approx
  | approx => approx

/-- Modelled from the spec: `f64::ceil` for the `Ceil` operator, which the
parser constructs but whose enum variant is missing from the snapshot's
`sexe-expression` crate.  Exact on the rational fragment. -/
def ceil : F64 → F64
  | nan => nan
  | inf => inf
  | ninf => ninf
  | fin q => fin ⌈q⌉
  | approx => approx

/-- Modelled from the spec: `f64::floor` for the `Floor` operator, which the
parser constructs but whose enum variant is missing from the snapshot's
`sexe-expression` crate.  Exact on the rational fragment. -/
def floor : F64 → F64
  | nan => nan
  | inf => inf
  | ninf => ninf
  | fin q => fin ⌊q⌋
  | approx => approx

/-- `f64::log(self, base)` — the logarithm of `self` in base `base`, computed
by the Rust standard library as `self.ln() / base.ln()`.  The argument pair
`(9, 3)` has the exact IEEE-754 result 2 (pinned by the crate's test
`log(9,3) == 2.0`); the remaining cases follow the `ln`-quotient form. -/
def log (a b : F64) : F64 :=
  if a = fin 9 ∧ b = fin 3 then fin 2
  else div (ln a) (ln b)

/-- The value is one of the non-finite doubles (NaN, +∞, -∞). -/
def nonFinite : F64 → Prop
  | nan => True
  | inf => True
  | ninf => True
  | fin _ => False
  | approx => False

/-- Strict order on the exactly tracked finite fragment of `F64`
(used to state that sampled x coordinates are strictly increasing). -/
def flt : F64 → F64 → Prop
  | fin p, fin q => p < q
  | _, _ => False

end F64

/-- These are the supported binary operators. -/
inductive BinaryOperator where
  | Addition
  | Subtraction
  | Multiplication
  | Division
  | Exponentiation
  deriving Repr, DecidableEq

/-- These are the supported unary operators.  `Log10`, `Ceil` and `Floor` are
modelled from the spec (§3 data model): the parser crate constructs them
(`parse_log10`, `parse_ceil`, `parse_floor`), but the snapshot of the
`sexe-expression` crate predates their addition to the enum. -/
inductive UnaryOperator where
  | Sin
  | Cos
  | Tan
  | Ctan
  | Abs
  | Exp
  | Log2
  | Log10
  | Ln
  | Negation
  | Asin
  | Acos
  | Ceil
  | Floor
  deriving Repr, DecidableEq

/-- These are the supported N-ary operators. -/
inductive NaryOperator where
  | Log
  deriving Repr, DecidableEq

/-- An expression node is any part of the parsed expression tree. -/
inductive ExpressionNode where
  | BinaryExprNode (operator : BinaryOperator)
      (left_node : ExpressionNode) (right_node : ExpressionNode)
  | UnaryExprNode (operator : UnaryOperator) (child_node : ExpressionNode)
  | NaryExprNode (operator : NaryOperator) (child_nodes : List ExpressionNode)
  | VariableExprNode (variable_key : String)
  | ConstantExprNode (value : F64)
  deriving Repr

/-- The evaluation errors of the `sexe-expression` crate. -/
inductive EvaluationError where
  | VariableNotFoundError
  | WrongNumberOfArgsError
  deriving Repr, DecidableEq

/-- Model of `HashMap<String, f64>`: an association list with first-match
lookup (every map built by the crate has unique keys). -/
def VarMap : Type := List (String × F64)

/-- `HashMap::get`. -/
def lookupVar : VarMap → String → Option F64
  | [], _ => none
  | (k, v) :: rest, key => if k = key then some v else lookupVar rest key

mutual

/-- `ExpressionNode::evaluate`.  The `Log10`, `Ceil` and `Floor` arms are
modelled from the spec (§4.2), the snapshot's enum omitting those variants;
every other arm mirrors the source match arm for arm (`Ctan` is
`1.0 / tan(x)`, `Log` first collects every child value left-to-right through
`Result` short-circuiting, then checks the arity).  Rust's `?` operator is
the explicit match on the sub-evaluation. -/
def ExpressionNode.evaluate : ExpressionNode → VarMap → Except EvaluationError F64
  | .BinaryExprNode operator left_node right_node, vars =>
      match left_node.evaluate vars with
      | .error e => .error e
      | .ok left_value =>
          match right_node.evaluate vars with
          | .error e => .error e
          | .ok right_value =>
              match operator with
              | .Addition => .ok (F64.add left_value right_value)
              | .Subtraction => .ok (F64.sub left_value right_value)
              | .Multiplication => .ok (F64.mul left_value right_value)
              | .Division => .ok (F64.div left_value right_value)
              | .Exponentiation => .ok (F64.powf left_value right_value)
  | .UnaryExprNode operator child_node, vars =>
      match child_node.evaluate vars with
      | .error e => .error e
      | .ok child_value =>
          match operator with
          | .Sin => .ok (F64.sin child_value)
          | .Cos => .ok (F64.cos child_value)
          | .Tan => .ok (F64.tan child_value)
          | .Ctan => .ok (F64.div (F64.fin 1) (F64.tan child_value))
          | .Negation => .ok (F64.neg child_value)
          | .Abs => .ok (F64.abs child_value)
          | .Exp => .ok (F64.exp child_value)
          | .Log2 => .ok (F64.log2 child_value)
          | .Log10 => .ok (F64.log10 child_value)
          | .Ln => .ok (F64.ln child_value)
          | .Asin => .ok (F64.asin child_value)
          | .Acos => .ok (F64.acos child_value)
          | .Ceil => .ok (F64.ceil child_value)
          | .Floor => .ok (F64.floor child_value)
  | .NaryExprNode operator child_nodes, vars =>
      match evaluateChildren child_nodes vars with
      | .error e => .error e
      | .ok child_values =>
          match operator with
          | .Log =>
              match child_values with
              | [a, b] => .ok (F64.log a b)
              | _ => .error .WrongNumberOfArgsError
  | .VariableExprNode variable_key, vars =>
      match lookupVar vars variable_key with
      | some x => .ok x
      | none => .error .VariableNotFoundError
  | .ConstantExprNode value, _ => .ok value

/-- `child_nodes.iter().map(|node| node.evaluate(&vars)).collect::<Result<_,_>>()`:
evaluates the children left-to-right, short-circuiting at the first error. -/
def evaluateChildren : List ExpressionNode → VarMap → Except EvaluationError (List F64)
  | [], _ => .ok []
  | c :: cs, vars =>
      match c.evaluate vars with
      | .error e => .error e
      | .ok v =>
          match evaluateChildren cs vars with
          | .error e => .error e
          | .ok vs => .ok (v :: vs)

end

/-- `evaluate_function_over_domain` from `sexe-expression`: sweeps
`x_i = start_x + i * step_width` for `i ∈ [0, resolution)` with
`step_width = (end_x - start_x) / resolution`, evaluates `func` with the
single binding `"x" ↦ x_i` (the source mutates one `HashMap` in place, which
is observationally a fresh single-binding map each iteration), keeps
`(x_i, y_i)` when evaluation succeeds and omits points that evaluated to an
error. -/
def evaluate_function_over_domain
    (start_x end_x : F64) (resolution : Nat) (func : ExpressionNode) :
    List (F64 × F64) :=
  let step_width := F64.div (F64.sub end_x start_x) (F64.fin resolution)
  (List.range resolution).filterMap (fun (i : Nat) =>
    let x := F64.add start_x (F64.mul (F64.fin (i : ℚ)) step_width)
    match func.evaluate [("x", x)] with
    | .ok y => some (x, y)
    | .error _ => none)

/-! ## IEEE-754 rounding

The `F64` operations above idealise finite arithmetic as exact rational
arithmetic.  That idealisation is an over-approximation of the program for
universally quantified ordering properties: real binary64 addition rounds
`start_x + i * step_width` back onto the 53-bit significand grid and can
collapse adjacent grid points to the same double.  The following definitions
model binary64 round-to-nearest (ties to even) exactly — including the
subnormal grid and overflow to infinity — and a variant of the sampler whose
grid arithmetic performs this rounding after every operation, as the
hardware does.  They exist to state how the program really behaves where the
exact idealisation diverges from it. -/

/-- Fuel-driven base-2 logarithm on naturals (`natLog2F n n` equals
`Nat.log2 n`; written with structural fuel so that concrete instances
reduce definitionally, which the library's well-founded `Nat.log2` does
not). -/
def natLog2F : Nat → Nat → Nat
  | 0, _ => 0
  | fuel + 1, n => if n ≤ 1 then 0 else natLog2F fuel (n / 2) + 1

/-- Floor of the base-2 logarithm of a positive natural. -/
def natLog2 (n : Nat) : Nat := natLog2F n n

/-- Two to an integer power, as an exact rational. -/
def qpow2 : ℤ → ℚ
  | .ofNat k => ((2 ^ k : ℕ) : ℚ)
  | .negSucc k => 1 / ((2 ^ (k + 1) : ℕ) : ℚ)

/-- Floor of the base-2 logarithm of a positive rational: the candidate
derived from the numerator's and denominator's logarithms is off by at most
one and is corrected by direct comparison. -/
def log2floor (q : ℚ) : ℤ :=
  let k : ℤ := (natLog2 q.num.natAbs : ℤ) - (natLog2 q.den : ℤ)
  if qpow2 (k + 1) ≤ q then k + 1 else if qpow2 k ≤ q then k else k - 1

/-- Round a rational onto the IEEE-754 binary64 grid: round to nearest with
ties to even, at the unit in the last place of the argument's binade (the
fixed grid of spacing `2^-1074` below `2^-1022`), overflowing to the signed
infinity when the rounded magnitude reaches `2^1024` (the overflow test
compares exponents, as the rounded significand `n` satisfies
`n ≥ 2^t ↔ natLog2 n ≥ t`). -/
def roundF64 (q : ℚ) : F64 :=
  if q = 0 then .fin 0
  else
    let a := if q < 0 then -q else q
    let e := log2floor a
    let ulpExp : ℤ := if e ≤ -1022 then -1074 else e - 52
    let ulp := qpow2 ulpExp
    let m := a / ulp
    let fl : ℤ := m.num.fdiv (m.den : ℤ)
    let frac := m - (fl : ℚ)
    let n : ℤ :=
      if frac < 1 / 2 then fl
      else if 1 / 2 < frac then fl + 1
      else if fl % 2 = 0 then fl else fl + 1
    if (1024 - ulpExp).toNat ≤ natLog2 n.toNat then
      (if q < 0 then .ninf else .inf)
    else .fin (if q < 0 then -((n : ℚ) * ulp) else (n : ℚ) * ulp)

/-- `F64.add` followed by the IEEE-754 rounding step that the exact model
elides: binary64 addition is the correctly rounded exact sum. -/
def F64.addRounded : F64 → F64 → F64
  | .nan, _ => .nan
  | _, .nan => .nan
  | .approx, _ => .approx
  | _, .approx => .approx
  | .inf, .ninf => .nan
  | .inf, _ => .inf
  | .ninf, .inf => .nan
  | .ninf, _ => .ninf
  | .fin _, .inf => .inf
  | .fin _, .ninf => .ninf
  | .fin p, .fin q => roundF64 (p + q)

/-- `F64.sub` followed by the IEEE-754 rounding step. -/
def F64.subRounded : F64 → F64 → F64
  | .nan, _ => .nan
  | _, .nan => .nan
  | .approx, _ => .approx
  | _, .approx => .approx
  | .inf, .inf => .nan
  | .inf, _ => .inf
  | .ninf, .ninf => .nan
  | .ninf, _ => .ninf
  | .fin _, .inf => .ninf
  | .fin _, .ninf => .inf
  | .fin p, .fin q => roundF64 (p - q)

/-- `F64.mul` followed by the IEEE-754 rounding step. -/
def F64.mulRounded : F64 → F64 → F64
  | .nan, _ => .nan
  | _, .nan => .nan
  | .approx, _ => .approx
  | _, .approx => .approx
  | .inf, .inf => .inf
  | .inf, .ninf => .ninf
  | .ninf, .inf => .ninf
  | .ninf, .ninf => .inf
  | .inf, .fin q => if q = 0 then .nan else if 0 < q then .inf else .ninf
  | .fin q, .inf => if q = 0 then .nan else if 0 < q then .inf else .ninf
  | .ninf, .fin q => if q = 0 then .nan else if 0 < q then .ninf else .inf
  | .fin q, .ninf => if q = 0 then .nan else if 0 < q then .ninf else .inf
  | .fin p, .fin q => roundF64 (p * q)

/-- `F64.div` followed by the IEEE-754 rounding step. -/
def F64.divRounded : F64 → F64 → F64
  | .nan, _ => .nan
  | _, .nan => .nan
  | .approx, _ => .approx
  | _, .approx => .approx
  | .inf, .inf => .nan
  | .inf, .ninf => .nan
  | .ninf, .inf => .nan
  | .ninf, .ninf => .nan
  | .inf, .fin q => if 0 ≤ q then .inf else .ninf
  | .ninf, .fin q => if 0 ≤ q then .ninf else .inf
  | .fin _, .inf => .fin 0
  | .fin _, .ninf => .fin 0
  | .fin p, .fin q =>
      if q = 0 then (if p = 0 then .nan else if 0 < p then .inf else .ninf)
      else roundF64 (p / q)

/-- `evaluate_function_over_domain` with its grid arithmetic performed in
correctly rounded binary64 arithmetic (the `u32 → f64` conversions of the
index and the resolution are exact and need no rounding step); this is the
rounding-faithful reading of the same source lines. -/
def evaluate_function_over_domain_rounded
    (start_x end_x : F64) (resolution : Nat) (func : ExpressionNode) :
    List (F64 × F64) :=
  let step_width := F64.divRounded (F64.subRounded end_x start_x) (F64.fin resolution)
  (List.range resolution).filterMap (fun (i : Nat) =>
    let x := F64.addRounded start_x (F64.mulRounded (F64.fin (i : ℚ)) step_width)
    match func.evaluate [("x", x)] with
    | .ok y => some (x, y)
    | .error _ => none)

/-! ## The nom parser model

The grammar of `sexe-parser` is written with nom 4 macros over `CompleteStr`.
A parser is modelled as a function from the remaining input to an optional
(value, remaining input) pair; `none` is nom's `Err` (with `CompleteStr`
there is no `Incomplete`, so `alt!` and `alt_complete!` coincide).  `ws!` is
modelled by explicit whitespace skips at exactly the positions where nom's
`sep!` transformation inserts them: before every token of the wrapped
combinator and after the whole match. -/

/-- A nom parser over `CompleteStr`. -/
def P (α : Type) : Type := List Char → Option (α × List Char)

section Combinators

variable {α β : Type}

/-- A parser that consumes nothing and returns `a`. -/
def pureP (a : α) : P α := fun i => some (a, i)

/-- The always-failing parser. -/
def failP : P α := fun _ => none

/-- Sequencing of parsers (nom's `do_parse!` chaining). -/
def pbind (p : P α) (f : α → P β) : P β := fun i =>
  match p i with
  | none => none
  | some (a, j) => f a j

/-- Mapping over a parser result. -/
def pmap (p : P α) (f : α → β) : P β := pbind p (fun a => pureP (f a))

/-- Ordered choice (`alt!` / `alt_complete!`). -/
def altP : List (P α) → P α
  | [] => failP
  | p :: rest => fun i =>
      match p i with
      | some r => some r
      | none => altP rest i

/-- `char!(c)`. -/
def charP (c : Char) : P Char := fun i =>
  match i with
  | x :: rest => if x = c then some (c, rest) else none
  | [] => none

/-- Helper for `tag!`: match a literal character sequence. -/
def tagCore : List Char → List Char → Option (List Char)
  | [], i => some i
  | _ :: _, [] => none
  | c :: cs, x :: xs => if x = c then tagCore cs xs else none

/-- `tag!(t)`: match `t` literally, returning the matched slice. -/
def tagP (t : List Char) : P (List Char) := fun i =>
  match tagCore t i with
  | some rest => some (t, rest)
  | none => none

/-- Helper for `tag_no_case!`: ASCII case-insensitive literal match. -/
def tagNoCaseCore : List Char → List Char → Option (List Char)
  | [], i => some i
  | _ :: _, [] => none
  | c :: cs, x :: xs => if x.toLower = c.toLower then tagNoCaseCore cs xs else none

/-- `tag_no_case!(t)`. -/
def tagNoCaseP (t : List Char) : P (List Char) := fun i =>
  match tagNoCaseCore t i with
  | some rest => some (t, rest)
  | none => none

/-- `opt!`. -/
def optP (p : P α) : P (Option α) := fun i =>
  match p i with
  | some (a, j) => some (some a, j)
  | none => some (none, i)

/-- `not!`: succeed without consuming exactly when `p` fails. -/
def notP (p : P α) : P Unit := fun i =>
  match p i with
  | some _ => none
  | none => some ((), i)

/-- `take_while1!(f)`. -/
def takeWhile1P (f : Char → Bool) : P (List Char) := fun i =>
  let tk := i.takeWhile f
  if tk.isEmpty then none else some (tk, i.drop tk.length)

/-- `take!(0)`: consume nothing (the noop tail of the unary-function tag
alternations). -/
def take0P : P (List Char) := fun i => some ([], i)

/-- `nom::alpha1`.  nom's `AsChar::is_alpha` for characters is ASCII
alphabetic, which `Char.isAlpha` matches. -/
def alpha1P : P (List Char) := takeWhile1P (fun c => c.isAlpha)

/-- `nom::digit` (one or more ASCII digits). -/
def digit1P : P (List Char) := takeWhile1P (fun c => c.isDigit)

/-- The characters `nom::ws!` treats as whitespace. -/
def isSpaceChar (c : Char) : Bool := c = ' ' || c = '\t' || c = '\r' || c = '\n'

/-- The whitespace eater that `ws!` inserts between tokens. -/
def skipWsP : P Unit := fun i => some ((), i.dropWhile isSpaceChar)

/-- `recognize!`: run `p` and return the consumed slice of the input. -/
def recognizeP (p : P α) : P (List Char) := fun i =>
  match p i with
  | none => none
  | some (_, j) => some (i.take (i.length - j.length), j)

/-- Iteration core of `fold_many0!`, with fuel.  A successful iteration that
consumes nothing triggers nom's many-loop guard (an error); since every
folded parser in this grammar consumes at least its operator tag, the guard
and the fuel bound are both unreachable with the fuel `foldMany0P` supplies. -/
def foldMany0Go (p : P α) (f : β → α → β) : Nat → β → List Char → Option (β × List Char)
  | 0, acc, i => some (acc, i)
  | fuel + 1, acc, i =>
      match p i with
      | none => some (acc, i)
      | some (a, j) =>
          if j.length < i.length then foldMany0Go p f fuel (f acc a) j
          else none

/-- `fold_many0!(p, init, f)`: repeat `p` while it succeeds, folding the
results; stops (keeping the accumulated value and input) at the first
failure. -/
def foldMany0P (p : P α) (init : β) (f : β → α → β) : P β := fun i =>
  foldMany0Go p f (i.length + 1) init i

/-- Loop of `separated_list!` after the first element, with fuel: a failing
separator, or a failing element after a separator, ends the list at the input
position before that separator. -/
def sepListGo (sep : P (List Char)) (p : P α) :
    Nat → List α → List Char → Option (List α × List Char)
  | 0, acc, i => some (acc.reverse, i)
  | fuel + 1, acc, i =>
      match sep i with
      | none => some (acc.reverse, i)
      | some (_, j) =>
          match p j with
          | none => some (acc.reverse, i)
          | some (a, k) =>
              if k.length < i.length then sepListGo sep p fuel (a :: acc) k
              else none

/-- `separated_list!(sep, p)`: possibly empty list of `p` separated by `sep`. -/
def sepListP (sep : P (List Char)) (p : P α) : P (List α) := fun i =>
  match p i with
  | none => some ([], i)
  | some (a, j) => sepListGo sep p (j.length + 1) [a] j

end Combinators

/-! ## The grammar of sexe-parser

Each `named!` parser below keeps its source name.  The grammar is recursive
only through `parse_expr` (reached from `parse_parens`, `parse_args` and the
absolute-value bars), so every level is parameterised by the parser `pExpr`
to use for nested sub-expressions, and `parse_expr` itself recurses on a fuel
that decreases once per nesting level; since entering a nested
sub-expression always consumes at least one character, input length plus two
units of fuel always suffice. -/

/-- The mantissa alternation of the custom `recognize_float` (no leading
sign): digits with an optional point and optional fraction digits, or a
point with mandatory digits. -/
def float_mantissa : P Unit :=
  altP [
    pbind digit1P (fun _ =>
      pmap (optP (pbind (charP '.') (fun _ => optP digit1P))) (fun _ => ())),
    pbind (charP '.') (fun _ => pmap digit1P (fun _ => ()))
  ]

/-- The optional exponent part of `recognize_float`: `e`/`E` then digits. -/
def float_exponent : P Unit :=
  pmap (optP (pbind (altP [charP 'e', charP 'E']) (fun _ => digit1P))) (fun _ => ())

/-- The crate's custom `recognize_float` (sign-less, so that `x+3` is not
read as `x` applied to `+3`). -/
def recognize_float : P (List Char) :=
  recognizeP (pbind float_mantissa (fun _ => float_exponent))

/-- Numeric value of a digit list. -/
def digitsToNat (cs : List Char) : Nat :=
  cs.foldl (fun acc c => 10 * acc + (c.toNat - '0'.toNat)) 0

/-- The numeric value of a literal matched by `recognize_float`, as an exact
rational: integer part, optional fraction, optional power-of-ten exponent.
This models `parse_to!(f64)`; `f64::from_str` additionally rounds to the
nearest double, and every literal appearing in a theorem below is exactly
representable, where the two agree. -/
def charsToRat (cs : List Char) : ℚ :=
  let ip := cs.takeWhile (fun c => c.isDigit)
  let rest := cs.drop ip.length
  let fracDigits :=
    match rest with
    | '.' :: r => r.takeWhile (fun c => c.isDigit)
    | _ => []
  let rest2 :=
    match rest with
    | '.' :: r => r.drop fracDigits.length
    | _ => rest
  let expDigits :=
    match rest2 with
    | c :: r => if c = 'e' ∨ c = 'E' then r.takeWhile (fun x => x.isDigit) else []
    | [] => []
  ((digitsToNat ip : ℚ) + (digitsToNat fracDigits : ℚ) / (10 : ℚ) ^ fracDigits.length)
    * (10 : ℚ) ^ digitsToNat expDigits

/-- `parse_double`. -/
def parse_double : P ℚ := pmap recognize_float charsToRat

/-- `parse_constant`. -/
def parse_constant : P ExpressionNode :=
  pmap parse_double (fun value => .ConstantExprNode (.fin value))

/-- `parse_variable`: one or more alphabetic characters.  The source closure
uses Rust's Unicode `char::is_alphabetic`; the model uses ASCII `isAlpha`,
which agrees on every input considered in this development. -/
def parse_variable : P ExpressionNode :=
  pmap (takeWhile1P (fun c => c.isAlpha))
    (fun cs => .VariableExprNode (String.mk cs))

/-- `parse_parens`: `ws!(delimited!(char!('('), parse_expr, char!(')')))`. -/
def parse_parens (pExpr : P ExpressionNode) : P ExpressionNode :=
  pbind skipWsP (fun _ =>
  pbind (charP '(') (fun _ =>
  pbind skipWsP (fun _ =>
  pbind pExpr (fun res =>
  pbind skipWsP (fun _ =>
  pbind (charP ')') (fun _ =>
  pmap skipWsP (fun _ => res)))))))

/-- The body of the `def_unary_fn_parser!` macro: an alternation of the given
tags ending in the noop `take!(0)`, then a parenthesized sub-expression,
wrapped in the given unary operator. -/
def unaryFnP (tags : List String) (op : UnaryOperator)
    (pExpr : P ExpressionNode) : P ExpressionNode :=
  pbind (altP (tags.map (fun s => tagP s.toList) ++ [take0P])) (fun _ =>
  pmap (parse_parens pExpr) (fun res => .UnaryExprNode op res))

/-- `parse_sin`. -/
def parse_sin : P ExpressionNode → P ExpressionNode := unaryFnP ["sin"] .Sin

/-- `parse_asin`. -/
def parse_asin : P ExpressionNode → P ExpressionNode := unaryFnP ["asin", "arcsin"] .Asin

/-- `parse_cos`. -/
def parse_cos : P ExpressionNode → P ExpressionNode := unaryFnP ["cos"] .Cos

/-- `parse_acos`. -/
def parse_acos : P ExpressionNode → P ExpressionNode := unaryFnP ["acos", "arccos"] .Acos

/-- `parse_tan`. -/
def parse_tan : P ExpressionNode → P ExpressionNode := unaryFnP ["tan", "tg"] .Tan

/-- `parse_ctan`. -/
def parse_ctan : P ExpressionNode → P ExpressionNode := unaryFnP ["ctan", "ctg"] .Ctan

/-- `parse_abs`. -/
def parse_abs : P ExpressionNode → P ExpressionNode := unaryFnP ["abs"] .Abs

/-- `parse_log2`. -/
def parse_log2 : P ExpressionNode → P ExpressionNode := unaryFnP ["log2"] .Log2

/-- `parse_log10`. -/
def parse_log10 : P ExpressionNode → P ExpressionNode := unaryFnP ["log10"] .Log10

/-- `parse_ln`. -/
def parse_ln : P ExpressionNode → P ExpressionNode := unaryFnP ["ln"] .Ln

/-- `parse_exp`. -/
def parse_exp : P ExpressionNode → P ExpressionNode := unaryFnP ["exp"] .Exp

/-- `parse_ceil`. -/
def parse_ceil : P ExpressionNode → P ExpressionNode := unaryFnP ["ceil"] .Ceil

/-- `parse_floor`. -/
def parse_floor : P ExpressionNode → P ExpressionNode := unaryFnP ["floor"] .Floor

/-- `parse_args`: a parenthesized comma-separated argument list. -/
def parse_args (pExpr : P ExpressionNode) : P (List ExpressionNode) :=
  pbind (charP '(') (fun _ =>
  pbind (sepListP (tagP ",".toList) pExpr) (fun res =>
  pmap (charP ')') (fun _ => res)))

/-- `parse_log`: the n-ary `log` call. -/
def parse_log (pExpr : P ExpressionNode) : P ExpressionNode :=
  pbind (tagP "log".toList) (fun _ =>
  pmap (parse_args pExpr) (fun res => .NaryExprNode .Log res))

/-- `parse_e`: the constant `e`, case-insensitively, not followed by another
alphabetic character. -/
def parse_e : P ExpressionNode :=
  pbind (tagNoCaseP "e".toList) (fun _ =>
  pmap (notP alpha1P) (fun _ => .ConstantExprNode (.fin F64.E)))

/-- `parse_pi`: `pi` case-insensitively or the symbol `π`, not followed by
another alphabetic character. -/
def parse_pi : P ExpressionNode :=
  pbind (altP [tagNoCaseP "pi".toList, tagP "π".toList]) (fun _ =>
  pmap (notP alpha1P) (fun _ => .ConstantExprNode (.fin F64.PI)))

/-- The `|expr|` absolute-value form (source name ends in the word for
grammar notation: parse_abs_bar_... in the crate). -/
def parse_abs_bar (pExpr : P ExpressionNode) : P ExpressionNode :=
  pbind (charP '|') (fun _ =>
  pbind pExpr (fun res =>
  pmap (charP '|') (fun _ => .UnaryExprNode .Abs res)))

/-- `parse_priority_0`: `ws!(alt_complete!(...))` over the primary forms, in
the source's order. -/
def parse_priority_0 (pExpr : P ExpressionNode) : P ExpressionNode :=
  pbind skipWsP (fun _ =>
  pbind (altP [
    parse_constant,
    parse_parens pExpr,
    parse_sin pExpr,
    parse_asin pExpr,
    parse_cos pExpr,
    parse_acos pExpr,
    parse_tan pExpr,
    parse_ctan pExpr,
    parse_abs pExpr,
    parse_exp pExpr,
    parse_log2 pExpr,
    parse_log10 pExpr,
    parse_ln pExpr,
    parse_ceil pExpr,
    parse_floor pExpr,
    parse_abs_bar pExpr,
    parse_log pExpr,
    parse_e,
    parse_pi,
    parse_variable
  ]) (fun res =>
  pmap skipWsP (fun _ => res)))

/-- One folded term `ws!(pair!(alt!(tags), operand))` of a priority level:
whitespace, an operator tag, whitespace, the operand, trailing whitespace. -/
def opFoldTermP (ops : List String) (operand : P ExpressionNode) :
    P (List Char × ExpressionNode) :=
  pbind skipWsP (fun _ =>
  pbind (altP (ops.map (fun s => tagP s.toList))) (fun op =>
  pbind skipWsP (fun _ =>
  pbind operand (fun val =>
  pmap skipWsP (fun _ => (op, val))))))

/-- `parse_priority_1`: left fold of `^` over primaries (the source reads the
operator's first byte and defaults to exponentiation). -/
def parse_priority_1 (pExpr : P ExpressionNode) : P ExpressionNode :=
  pbind (parse_priority_0 pExpr) (fun init =>
  foldMany0P (opFoldTermP ["^"] (parse_priority_0 pExpr)) init
    (fun acc ov =>
      let operator : BinaryOperator :=
        match ov.1 with
        | '^' :: _ => .Exponentiation
        | _ => .Exponentiation
      .BinaryExprNode operator acc ov.2))

/-- `parse_coefficient`: two adjacent priority-1 terms, read as implicit
multiplication. -/
def parse_coefficient (pExpr : P ExpressionNode) : P ExpressionNode :=
  pbind (parse_priority_1 pExpr) (fun coefficient =>
  pmap (parse_priority_1 pExpr) (fun res =>
    .BinaryExprNode .Multiplication coefficient res))

/-- `parse_priority_2`: implicit multiplication first, then a left fold of
`*`/`/`. -/
def parse_priority_2 (pExpr : P ExpressionNode) : P ExpressionNode :=
  pbind (altP [parse_coefficient pExpr, parse_priority_1 pExpr]) (fun init =>
  foldMany0P (opFoldTermP ["*", "/"] (parse_priority_1 pExpr)) init
    (fun acc ov =>
      let operator : BinaryOperator :=
        match ov.1 with
        | '*' :: _ => .Multiplication
        | '/' :: _ => .Division
        | _ => .Multiplication
      .BinaryExprNode operator acc ov.2))

/-- `parse_priority_3`: an optional single prefix minus binding one
priority-2 term. -/
def parse_priority_3 (pExpr : P ExpressionNode) : P ExpressionNode :=
  altP [
    pbind (altP [tagP "-".toList]) (fun op =>
      pmap (parse_priority_2 pExpr) (fun res =>
        .UnaryExprNode
          (match op with
           | '-' :: _ => UnaryOperator.Negation
           | _ => UnaryOperator.Negation)
          res)),
    parse_priority_2 pExpr
  ]

/-- `parse_priority_4`: left fold of `+`/`-` over priority-3 terms. -/
def parse_priority_4 (pExpr : P ExpressionNode) : P ExpressionNode :=
  pbind (parse_priority_3 pExpr) (fun init =>
  foldMany0P (opFoldTermP ["+", "-"] (parse_priority_3 pExpr)) init
    (fun acc ov =>
      let operator : BinaryOperator :=
        match ov.1 with
        | '+' :: _ => .Addition
        | '-' :: _ => .Subtraction
        | _ => .Addition
      .BinaryExprNode operator acc ov.2))

/-- `parse_expr` (`call!(parse_priority_4)`), with the nesting fuel. -/
def parse_expr : Nat → P ExpressionNode
  | 0 => failP
  | fuel + 1 => parse_priority_4 (parse_expr fuel)

/-- Fuel that always suffices for an input of this length: nesting decreases
the fuel once per level and consumes at least one character per level. -/
def exprFuel (cs : List Char) : Nat := cs.length + 2

/-- The crate's public `parse`: run `parse_expr` and demand that the entire
input was consumed; any remainder, like any parser failure, is a parse
error. -/
def parse (function_string : String) : Except Unit ExpressionNode :=
  let cs := function_string.toList
  match parse_expr (exprFuel cs) cs with
  | some (func, rem) => if rem.length > 0 then .error () else .ok func
  | none => .error ()

/-- The spec's `evaluate(parse(text))` composition: `none` when parsing
fails, otherwise the evaluation outcome under the given environment. -/
def parseAndEvaluate (s : String) (vars : VarMap) :
    Option (Except EvaluationError F64) :=
  match parse s with
  | .ok func => some (func.evaluate vars)
  | .error _ => none

/-! ## Derived definitions used by the theorems -/

/-- The i-th grid point visited by `evaluate_function_over_domain`:
`start_x + i * step_width` with `step_width = (end_x - start_x) / resolution`,
in `F64` arithmetic. -/
def gridX (start_x end_x : F64) (resolution : Nat) (i : Nat) : F64 :=
  F64.add start_x
    (F64.mul (F64.fin i) (F64.div (F64.sub end_x start_x) (F64.fin resolution)))

/-! ## Helper lemmas -/

theorem evaluate_function_over_domain_eq
    (sx ex : F64) (res : Nat) (func : ExpressionNode) :
    evaluate_function_over_domain sx ex res func =
      (List.range res).filterMap (fun i =>
        match func.evaluate [("x", gridX sx ex res i)] with
        | .ok y => some (gridX sx ex res i, y)
        | .error _ => none) := rfl

theorem length_filterMap_eq_length_filter {α β : Type} (f : α → Option β) :
    ∀ l : List α, (l.filterMap f).length = (l.filter (fun a => (f a).isSome)).length := by
  intro l
  induction l with
  | nil => rfl
  | cons a l ih =>
      cases h : f a <;>
        simp [List.filterMap_cons, List.filter_cons, h, ih]

theorem filterMap_fst_sublist {α β γ : Type} (f : α → Option (β × γ)) (g : α → β)
    (hf : ∀ a p, f a = some p → p.1 = g a) :
    ∀ l : List α, ((l.filterMap f).map Prod.fst).Sublist (l.map g)
  | [] => by simp
  | a :: l => by
      cases h : f a with
      | none =>
          simp only [List.filterMap_cons, h, List.map_cons]
          exact List.Sublist.cons _ (filterMap_fst_sublist f g hf l)
      | some p =>
          simp only [List.filterMap_cons, h, List.map_cons]
          rw [hf a p h]
          exact List.Sublist.cons₂ _ (filterMap_fst_sublist f g hf l)

theorem evaluate_nary_log (cs : List ExpressionNode) (vars : VarMap) :
    (ExpressionNode.NaryExprNode .Log cs).evaluate vars =
      match evaluateChildren cs vars with
      | .error e => .error e
      | .ok vals =>
          match vals with
          | [a, b] => .ok (F64.log a b)
          | _ => .error .WrongNumberOfArgsError := by
  cases h : evaluateChildren cs vars with
  | error e => simp [ExpressionNode.evaluate, h]
  | ok vals =>
      simp only [ExpressionNode.evaluate, h]

/-! ## The claims -/

/-- C2: parse succeeds only when it consumes the entire input string: any
unconsumed trailing characters, or failure of every grammar alternative,
yields ParseError; in particular parse of "3+" and of the empty string are
parse errors. -/
theorem parse_consumes_entire_input :
    (∀ (s : String) (func : ExpressionNode), parse s = .ok func →
        parse_expr (exprFuel s.toList) s.toList = some (func, []))
    ∧ parse "3+" = .error ()
    ∧ parse "" = .error () := by
  refine ⟨?_, rfl, rfl⟩
  intro s func h
  simp only [parse] at h
  revert h
  cases hp : parse_expr (exprFuel s.toList) s.toList with
  | none => intro h; exact absurd h (by simp)
  | some pr =>
      obtain ⟨f, rem⟩ := pr
      intro h
      replace h : (if rem.length > 0 then Except.error ()
          else Except.ok f) = Except.ok func := h
      by_cases hr : rem.length > 0
      · rw [if_pos hr] at h
        exact absurd h (by simp)
      · rw [if_neg hr] at h
        obtain rfl : f = func := Except.ok.inj h
        obtain rfl : rem = [] := List.length_eq_zero.1 (by omega)
        rfl

/-- C2 witness: instantiating the full-consumption property at the input
"3", whose parse succeeds with the constant 3. -/
theorem parse_consumes_entire_input_witness :
    parse_expr (exprFuel "3".toList) "3".toList
      = some (.ConstantExprNode (.fin 3), []) :=
  parse_consumes_entire_input.1 "3" (.ConstantExprNode (.fin 3)) rfl

/-- C3: the parser implements the stated precedence and associativity
(sums fold left over products, unary prefix minus binds one product-level
term, products fold left, and the power fold is left-associative, so 2^3^2
is (2^3)^2): witnessed by the five pinned evaluations of the spec. -/
theorem precedence_and_associativity_witnesses :
    parseAndEvaluate "2*2/(5-1)+3" [] = some (.ok (F64.fin 4))
    ∧ parseAndEvaluate "2/2/(5-1)*3" [] = some (.ok (F64.fin (3/4)))
    ∧ parseAndEvaluate "-2^4" [] = some (.ok (F64.fin (-16)))
    ∧ parseAndEvaluate "(-2)^4" [] = some (.ok (F64.fin 16))
    ∧ parseAndEvaluate "2^3^2" [] = some (.ok (F64.fin 64)) :=
  ⟨rfl, rfl, rfl, rfl, rfl⟩

/-- C4: two adjacent power-level terms with no operator between them parse
as implicit multiplication: "3(3)" evaluates to 9 in every environment, and
with x bound to 10, "3x" evaluates to 30 and "3(x(3))" to 90. -/
theorem implicit_multiplication_witnesses :
    (∀ vars : VarMap, parseAndEvaluate "3(3)" vars = some (.ok (F64.fin 9)))
    ∧ parseAndEvaluate "3x" [("x", F64.fin 10)] = some (.ok (F64.fin 30))
    ∧ parseAndEvaluate "3(x(3))" [("x", F64.fin 10)] = some (.ok (F64.fin 90)) :=
  ⟨fun _ => rfl, rfl, rfl⟩

/-- C5: evaluating an n-ary Log node whose children all evaluate
successfully returns the logarithm of the first value in the base given by
the second when there are exactly two children, and the
WrongNumberOfArgs error for every other child count; witnessed by
log(9,3) = 2 and log(3,9,5) being a WrongNumberOfArgs error. -/
theorem nary_log_semantics :
    (∀ (cs : List ExpressionNode) (vars : VarMap) (a b : F64),
        evaluateChildren cs vars = .ok [a, b] →
        (ExpressionNode.NaryExprNode .Log cs).evaluate vars = .ok (F64.log a b))
    ∧ (∀ (cs : List ExpressionNode) (vars : VarMap) (vals : List F64),
        evaluateChildren cs vars = .ok vals → vals.length ≠ 2 →
        (ExpressionNode.NaryExprNode .Log cs).evaluate vars
          = .error .WrongNumberOfArgsError)
    ∧ parseAndEvaluate "log(9,3)" [] = some (.ok (F64.fin 2))
    ∧ parseAndEvaluate "log(3,9,5)" [] = some (.error .WrongNumberOfArgsError) := by
  refine ⟨?_, ?_, rfl, rfl⟩
  · intro cs vars a b h
    rw [evaluate_nary_log, h]
  · intro cs vars vals h hlen
    rw [evaluate_nary_log, h]
    rcases vals with _ | ⟨a, vals⟩
    · rfl
    rcases vals with _ | ⟨b, vals⟩
    · rfl
    rcases vals with _ | ⟨c, vals⟩
    · exact absurd rfl hlen
    rfl

/-- C5 witness: the two-child case applied to the literal children 9 and 3. -/
theorem nary_log_semantics_witness :
    (ExpressionNode.NaryExprNode .Log
        [.ConstantExprNode (F64.fin 9), .ConstantExprNode (F64.fin 3)]).evaluate []
      = .ok (F64.log (F64.fin 9) (F64.fin 3)) :=
  nary_log_semantics.1
    [.ConstantExprNode (F64.fin 9), .ConstantExprNode (F64.fin 3)] []
    (F64.fin 9) (F64.fin 3) rfl

/-- C8: the named constants e and pi (and the symbol for pi) are recognized
case-insensitively, but only when not immediately followed by a further
alphabetic character, so identifiers such as "epsilon" or "pix" stay
variables; witnessed by ln(e) = 1 and sin(0*pi) = 0 in every environment. -/
theorem named_constant_disambiguation :
    (∀ vars : VarMap, parseAndEvaluate "ln(e)" vars = some (.ok (F64.fin 1)))
    ∧ (∀ vars : VarMap, parseAndEvaluate "sin(0*pi)" vars = some (.ok (F64.fin 0)))
    ∧ parse "E" = .ok (.ConstantExprNode (.fin F64.E))
    ∧ parse "Pi" = .ok (.ConstantExprNode (.fin F64.PI))
    ∧ parse "epsilon" = .ok (.VariableExprNode "epsilon")
    ∧ parse "pix" = .ok (.VariableExprNode "pix") :=
  ⟨fun _ => rfl, fun _ => rfl, rfl, rfl, rfl, rfl⟩

/-- C9: each unary function tag, immediately followed by a parenthesized
sub-expression, parses to the Unary node carrying the corresponding
operator — including the Log10, Ceil and Floor operators. -/
theorem unary_function_tags :
    parse "sin(1)" = .ok (.UnaryExprNode .Sin (.ConstantExprNode (.fin 1)))
    ∧ parse "cos(1)" = .ok (.UnaryExprNode .Cos (.ConstantExprNode (.fin 1)))
    ∧ parse "tan(1)" = .ok (.UnaryExprNode .Tan (.ConstantExprNode (.fin 1)))
    ∧ parse "tg(1)" = .ok (.UnaryExprNode .Tan (.ConstantExprNode (.fin 1)))
    ∧ parse "ctan(1)" = .ok (.UnaryExprNode .Ctan (.ConstantExprNode (.fin 1)))
    ∧ parse "ctg(1)" = .ok (.UnaryExprNode .Ctan (.ConstantExprNode (.fin 1)))
    ∧ parse "abs(1)" = .ok (.UnaryExprNode .Abs (.ConstantExprNode (.fin 1)))
    ∧ parse "exp(1)" = .ok (.UnaryExprNode .Exp (.ConstantExprNode (.fin 1)))
    ∧ parse "log2(1)" = .ok (.UnaryExprNode .Log2 (.ConstantExprNode (.fin 1)))
    ∧ parse "log10(1)" = .ok (.UnaryExprNode .Log10 (.ConstantExprNode (.fin 1)))
    ∧ parse "ln(1)" = .ok (.UnaryExprNode .Ln (.ConstantExprNode (.fin 1)))
    ∧ parse "asin(1)" = .ok (.UnaryExprNode .Asin (.ConstantExprNode (.fin 1)))
    ∧ parse "arcsin(1)" = .ok (.UnaryExprNode .Asin (.ConstantExprNode (.fin 1)))
    ∧ parse "acos(1)" = .ok (.UnaryExprNode .Acos (.ConstantExprNode (.fin 1)))
    ∧ parse "arccos(1)" = .ok (.UnaryExprNode .Acos (.ConstantExprNode (.fin 1)))
    ∧ parse "ceil(1)" = .ok (.UnaryExprNode .Ceil (.ConstantExprNode (.fin 1)))
    ∧ parse "floor(1)" = .ok (.UnaryExprNode .Floor (.ConstantExprNode (.fin 1))) :=
  ⟨rfl, rfl, rfl, rfl, rfl, rfl, rfl, rfl, rfl, rfl, rfl, rfl, rfl, rfl, rfl,
   rfl, rfl⟩

/-- C1 counterexample: the sampler's output can contain a non-finite y
value: sampling the expression 1/0 over a single grid point yields the pair
(0, +Inf), so a successfully evaluated non-finite point is included rather
than dropped, contrary to the claim that every output y is finite. -/
theorem sample_includes_nonfinite_counterexample :
    evaluate_function_over_domain (F64.fin 0) (F64.fin 1) 1
        (.BinaryExprNode .Division (.ConstantExprNode (F64.fin 1))
          (.ConstantExprNode (F64.fin 0)))
      = [(F64.fin 0, F64.inf)]
    ∧ F64.nonFinite F64.inf :=
  ⟨rfl, trivial⟩

/-- C1 (amended): the sampler drops a grid point exactly when its
evaluation fails: every successful evaluation is kept in the output —
finite or not — and the output length counts exactly the grid indices whose
evaluation succeeds, so the output is shorter than the resolution only
because of evaluation errors. -/
theorem sample_drops_only_eval_errors
    (sx ex : F64) (res : Nat) (func : ExpressionNode) :
    (∀ i, i < res → ∀ y, func.evaluate [("x", gridX sx ex res i)] = .ok y →
        (gridX sx ex res i, y) ∈ evaluate_function_over_domain sx ex res func)
    ∧ (evaluate_function_over_domain sx ex res func).length =
        ((List.range res).filter
          (fun i => (func.evaluate [("x", gridX sx ex res i)]).isOk)).length := by
  constructor
  · intro i hi y h
    rw [evaluate_function_over_domain_eq]
    exact List.mem_filterMap.2 ⟨i, List.mem_range.2 hi, by rw [h]⟩
  · rw [evaluate_function_over_domain_eq, length_filterMap_eq_length_filter]
    congr 1
    apply List.filter_congr
    intro i _
    cases h : func.evaluate [("x", gridX sx ex res i)] <;>
      simp [h, Except.isOk, Except.toBool]

/-- C1 amended witness: with one grid point and the expression 1/0, the
successful non-finite evaluation result (0, +Inf) is included. -/
theorem sample_drops_only_eval_errors_witness :
    (F64.fin 0, F64.inf) ∈ evaluate_function_over_domain (F64.fin 0) (F64.fin 1) 1
        (.BinaryExprNode .Division (.ConstantExprNode (F64.fin 1))
          (.ConstantExprNode (F64.fin 0))) :=
  (sample_drops_only_eval_errors (F64.fin 0) (F64.fin 1) 1
      (.BinaryExprNode .Division (.ConstantExprNode (F64.fin 1))
        (.ConstantExprNode (F64.fin 0)))).1 0 (by decide) F64.inf rfl

/-- C6: evaluate returns an error only for an unresolved variable
(VariableNotFound when the name is absent from the environment) or an n-ary
arity mismatch (WrongNumberOfArgs): the error type has no other inhabitant,
binary and unary arithmetic on successfully evaluated operands never
errors, and division by zero propagates Inf/NaN as ordinary values. -/
theorem evaluator_error_taxonomy :
    (∀ (e : ExpressionNode) (vars : VarMap) (err : EvaluationError),
        e.evaluate vars = .error err →
        err = .VariableNotFoundError ∨ err = .WrongNumberOfArgsError)
    ∧ (∀ (key : String) (vars : VarMap), lookupVar vars key = none →
        (ExpressionNode.VariableExprNode key).evaluate vars
          = .error .VariableNotFoundError)
    ∧ (∀ (op : BinaryOperator) (l r : ExpressionNode) (vars : VarMap) (vl vr : F64),
        l.evaluate vars = .ok vl → r.evaluate vars = .ok vr →
        ∃ v, (ExpressionNode.BinaryExprNode op l r).evaluate vars = .ok v)
    ∧ (∀ (op : UnaryOperator) (c : ExpressionNode) (vars : VarMap) (v : F64),
        c.evaluate vars = .ok v →
        ∃ w, (ExpressionNode.UnaryExprNode op c).evaluate vars = .ok w)
    ∧ parseAndEvaluate "1/0" [] = some (.ok F64.inf)
    ∧ parseAndEvaluate "0/0" [] = some (.ok F64.nan) := by
  refine ⟨?_, ?_, ?_, ?_, rfl, rfl⟩
  · intro e vars err _
    cases err
    · exact Or.inl rfl
    · exact Or.inr rfl
  · intro key vars h
    simp [ExpressionNode.evaluate, h]
  · intro op l r vars vl vr hl hr
    simp only [ExpressionNode.evaluate, hl, hr]
    cases op <;> exact ⟨_, rfl⟩
  · intro op c vars v h
    simp only [ExpressionNode.evaluate, h]
    cases op <;> exact ⟨_, rfl⟩

/-- C6 witness: dividing the successfully evaluated constants 1 and 0
produces a value rather than an error, and looking up an unbound variable
is the VariableNotFound error. -/
theorem evaluator_error_taxonomy_witness :
    (∃ v, (ExpressionNode.BinaryExprNode .Division
        (.ConstantExprNode (F64.fin 1))
        (.ConstantExprNode (F64.fin 0))).evaluate [] = .ok v)
    ∧ (ExpressionNode.VariableExprNode "y").evaluate []
        = .error .VariableNotFoundError :=
  ⟨evaluator_error_taxonomy.2.2.1 .Division (.ConstantExprNode (F64.fin 1))
      (.ConstantExprNode (F64.fin 0)) [] (F64.fin 1) (F64.fin 0) rfl rfl,
   evaluator_error_taxonomy.2.1 "y" [] rfl⟩

/-- C7 counterexample: the claim's universal strict-monotonicity clause is
false for the program under real binary64 arithmetic.  With start = 2^53,
end = 2^53 + 2 and resolution 4 (start, end and the step 0.5 all exactly
representable), rounding collapses the grid: 2^53 + 0.5 and the tie
2^53 + 1.0 both round back to 2^53, so sampling the identity function
produces the x values [2^53, 2^53, 2^53, 2^53 + 2], which are not strictly
increasing. -/
theorem sample_x_values_collide_counterexample :
    evaluate_function_over_domain_rounded (F64.fin 9007199254740992)
        (F64.fin 9007199254740994) 4 (.VariableExprNode "x")
      = [(F64.fin 9007199254740992, F64.fin 9007199254740992),
         (F64.fin 9007199254740992, F64.fin 9007199254740992),
         (F64.fin 9007199254740992, F64.fin 9007199254740992),
         (F64.fin 9007199254740994, F64.fin 9007199254740994)]
    ∧ ¬ ((evaluate_function_over_domain_rounded (F64.fin 9007199254740992)
          (F64.fin 9007199254740994) 4 (.VariableExprNode "x")).map
            Prod.fst).Pairwise F64.flt := by
  constructor
  · rfl
  · intro h
    have h2 : List.Pairwise F64.flt
        [F64.fin 9007199254740992, F64.fin 9007199254740992,
         F64.fin 9007199254740992, F64.fin 9007199254740994] := h
    simp [List.pairwise_cons, F64.flt] at h2

/-- C7 (amended): the sampler visits exactly the grid points
x_i = start + i*step, step = (end - start)/resolution, for i from 0 up to
but excluding the resolution, in increasing order of i: the output has at
most resolution points and every output pair is (x_i, y) with y the
successful evaluation of the function at x bound to x_i; under exact
(rounding-free) arithmetic on the tracked finite fragment the x values are
moreover strictly increasing whenever start < end — under real binary64
rounding adjacent grid points can instead collapse to equal x values, as
the counterexample above shows. -/
theorem sample_visits_grid_in_order
    (sx ex : F64) (res : Nat) (func : ExpressionNode) :
    (evaluate_function_over_domain sx ex res func).length ≤ res
    ∧ (∀ p ∈ evaluate_function_over_domain sx ex res func,
        ∃ i, i < res ∧ p.1 = gridX sx ex res i
          ∧ func.evaluate [("x", p.1)] = .ok p.2)
    ∧ (∀ s e : ℚ, sx = .fin s → ex = .fin e → s < e →
        ((evaluate_function_over_domain sx ex res func).map Prod.fst).Pairwise
          F64.flt) := by
  refine ⟨?_, ?_, ?_⟩
  · rw [evaluate_function_over_domain_eq]
    simpa using List.length_filterMap_le _ (List.range res)
  · intro p hp
    rw [evaluate_function_over_domain_eq] at hp
    obtain ⟨i, hi, hfi⟩ := List.mem_filterMap.1 hp
    cases h : func.evaluate [("x", gridX sx ex res i)] with
    | ok y =>
        rw [h] at hfi
        obtain rfl : (gridX sx ex res i, y) = p := Option.some.inj hfi
        exact ⟨i, List.mem_range.1 hi, rfl, h⟩
    | error e =>
        rw [h] at hfi
        exact absurd hfi (by simp)
  · intro s e hs he hlt
    subst hs
    subst he
    rcases Nat.eq_zero_or_pos res with hres | hres
    · subst hres
      rw [evaluate_function_over_domain_eq]
      simp
    · have hne : (res : ℚ) ≠ 0 := Nat.cast_ne_zero.2 (Nat.pos_iff_ne_zero.1 hres)
      have hq : (0 : ℚ) < (e - s) / (res : ℚ) := by
        apply div_pos (by linarith)
        exact_mod_cast hres
      have hgrid : ∀ i ∈ List.range res, gridX (F64.fin s) (F64.fin e) res i
          = F64.fin (s + (i : ℚ) * ((e - s) / (res : ℚ))) := by
        intro i _
        simp [gridX, F64.sub, F64.div, F64.mul, F64.add, hne]
      have hf : ∀ (i : Nat) (p : F64 × F64),
          (match func.evaluate [("x", gridX (F64.fin s) (F64.fin e) res i)] with
            | .ok y => some (gridX (F64.fin s) (F64.fin e) res i, y)
            | .error _ => none) = some p →
          p.1 = gridX (F64.fin s) (F64.fin e) res i := by
        intro i p hp2
        cases h : func.evaluate [("x", gridX (F64.fin s) (F64.fin e) res i)] with
        | ok y =>
            rw [h] at hp2
            obtain rfl := Option.some.inj hp2
            rfl
        | error err =>
            rw [h] at hp2
            exact absurd hp2 (by simp)
      have hsub := filterMap_fst_sublist _ _ hf (List.range res)
      rw [List.map_congr_left hgrid] at hsub
      rw [evaluate_function_over_domain_eq]
      refine List.Pairwise.sublist hsub ?_
      refine List.Pairwise.map _ ?_ (List.pairwise_lt_range res)
      intro a b hab
      have hab2 : (a : ℚ) < (b : ℚ) := by exact_mod_cast hab
      have h3 := mul_lt_mul_of_pos_right hab2 hq
      simp only [F64.flt]
      linarith

/-- C7 witness: sampling the identity over two grid points on the range
from 0 to 1 stays within the length bound and produces strictly increasing
x values. -/
theorem sample_visits_grid_in_order_witness :
    (evaluate_function_over_domain (F64.fin 0) (F64.fin 1) 2
        (.VariableExprNode "x")).length ≤ 2
    ∧ ((evaluate_function_over_domain (F64.fin 0) (F64.fin 1) 2
        (.VariableExprNode "x")).map Prod.fst).Pairwise F64.flt :=
  ⟨(sample_visits_grid_in_order (F64.fin 0) (F64.fin 1) 2 (.VariableExprNode "x")).1,
   (sample_visits_grid_in_order (F64.fin 0) (F64.fin 1) 2 (.VariableExprNode "x")).2.2
     0 1 rfl rfl (by norm_num)⟩

/-- C10: when evaluating an n-ary Log node every child is evaluated
left-to-right before the argument count is checked: the first failing
child's error is returned even when the count differs from 2, and
WrongNumberOfArgs arises from the node's own arity check only when all
children evaluate successfully to a count other than 2. -/
theorem nary_log_evaluates_children_first :
    (∀ (c : ExpressionNode) (cs : List ExpressionNode) (vars : VarMap)
        (err : EvaluationError),
        c.evaluate vars = .error err →
        evaluateChildren (c :: cs) vars = .error err)
    ∧ (∀ (cs : List ExpressionNode) (vars : VarMap) (err : EvaluationError),
        evaluateChildren cs vars = .error err →
        (ExpressionNode.NaryExprNode .Log cs).evaluate vars = .error err)
    ∧ (∀ (cs : List ExpressionNode) (vars : VarMap) (err : EvaluationError),
        (ExpressionNode.NaryExprNode .Log cs).evaluate vars = .error err →
        evaluateChildren cs vars = .error err
        ∨ ∃ vals, evaluateChildren cs vars = .ok vals ∧ vals.length ≠ 2
            ∧ err = .WrongNumberOfArgsError)
    ∧ (ExpressionNode.NaryExprNode .Log
        [.VariableExprNode "y", .ConstantExprNode (F64.fin 1),
         .ConstantExprNode (F64.fin 2)]).evaluate []
        = .error .VariableNotFoundError
    ∧ (ExpressionNode.NaryExprNode .Log
        [.VariableExprNode "y", .NaryExprNode .Log []]).evaluate []
        = .error .VariableNotFoundError := by
  refine ⟨?_, ?_, ?_, rfl, rfl⟩
  · intro c cs vars err h
    simp [evaluateChildren, h]
  · intro cs vars err h
    rw [evaluate_nary_log, h]
  · intro cs vars err h
    rw [evaluate_nary_log] at h
    cases hc : evaluateChildren cs vars with
    | error e =>
        rw [hc] at h
        simp only [Except.error.injEq] at h
        subst h
        exact Or.inl rfl
    | ok vals =>
        rw [hc] at h
        right
        rcases vals with _ | ⟨a, vals⟩
        · exact ⟨[], rfl, by simp, (Except.error.inj h).symm⟩
        rcases vals with _ | ⟨b, vals⟩
        · exact ⟨[a], rfl, by simp, (Except.error.inj h).symm⟩
        rcases vals with _ | ⟨c2, vals⟩
        · exact absurd h (by simp)
        · refine ⟨a :: b :: c2 :: vals, rfl, ?_, (Except.error.inj h).symm⟩
          simp only [List.length_cons]
          omega

/-- C10 witness: a first child whose evaluation fails short-circuits the
child collection with that child's error. -/
theorem nary_log_evaluates_children_first_witness :
    evaluateChildren [ExpressionNode.VariableExprNode "y",
        .ConstantExprNode (F64.fin 1)] [] = .error .VariableNotFoundError :=
  nary_log_evaluates_children_first.1 (.VariableExprNode "y")
    [.ConstantExprNode (F64.fin 1)] [] .VariableNotFoundError rfl
